import Mathlib

/-!
# Verification of the remote.it API wrapper against its specification

This development shallowly embeds the core of the `remoteit-api-wrapper-rs`
crate: the request signer (`auth.rs`: `create_signature`, `build_auth_header`,
`get_date`), the credential model and loader (`credentials.rs`,
`credentials_loader.rs`: `CredentialProfiles::take_profile`), and the file
upload response handling (`api_file_upload.rs`: `upload_file`).

External crates are embedded by the standards they implement:
`ring::hmac::HMAC_SHA256` as HMAC-SHA256 per RFC 2104 over SHA-256 per
FIPS 180-4, and `base64::engine::general_purpose::STANDARD` as padded
standard-alphabet base64 with canonical (strict) decoding.

Bytes are modelled as `Nat` with explicit `% 256` / `% 2 ^ 32` reductions
where the machine arithmetic wraps; strings as Lean `String`; the
`HashMap<String, UnverifiedCredentials>` of the loader as a function
`String → Option UnverifiedCredentials`; `&mut self` methods as functions
returning the new state.
-/

/-! ## Base64 (standard alphabet, padded) — `base64` crate `STANDARD` engine -/

/-- Character of the standard base64 alphabet at index `n` (for `n < 64`):
`A`–`Z`, `a`–`z`, `0`–`9`, `+`, `/`. -/
def b64Char (n : Nat) : Char :=
  if n < 26 then Char.ofNat (65 + n)
  else if n < 52 then Char.ofNat (97 + (n - 26))
  else if n < 62 then Char.ofNat (48 + (n - 52))
  else if n = 62 then '+'
  else '/'

/-- Index of a character in the standard base64 alphabet, `none` when the
character is not in the alphabet. -/
def b64CharVal (c : Char) : Option Nat :=
  if 65 ≤ c.toNat ∧ c.toNat ≤ 90 then some (c.toNat - 65)
  else if 97 ≤ c.toNat ∧ c.toNat ≤ 122 then some (26 + (c.toNat - 97))
  else if 48 ≤ c.toNat ∧ c.toNat ≤ 57 then some (52 + (c.toNat - 48))
  else if c = '+' then some 62
  else if c = '/' then some 63
  else none

/-- Base64 encoding of a byte list, three input bytes to four output
characters, padded with `=` (standard padded encoding, as produced by the
`base64` crate's `STANDARD` engine). -/
def encodeChunks : List Nat → List Char
  | [] => []
  | [b0] => [b64Char (b0 / 4), b64Char (b0 % 4 * 16), '=', '=']
  | [b0, b1] => [b64Char (b0 / 4), b64Char (b0 % 4 * 16 + b1 / 16), b64Char (b1 % 16 * 4), '=']
  | b0 :: b1 :: b2 :: rest =>
      b64Char (b0 / 4) :: b64Char (b0 % 4 * 16 + b1 / 16) ::
      b64Char (b1 % 16 * 4 + b2 / 64) :: b64Char (b2 % 64) :: encodeChunks rest

/-- `BASE64_STANDARD.encode`: base64-encode a byte list to a string. -/
def base64Encode (bs : List Nat) : String := String.mk (encodeChunks bs)

/-- Strict base64 decoding of a character list: four characters to three
bytes, `=`-padding only in the final quartet, canonical trailing bits
required, length must be a multiple of four (the `base64` crate's `STANDARD`
engine decoding semantics). -/
def decodeChunks : List Char → Option (List Nat)
  | c0 :: c1 :: c2 :: c3 :: rest =>
    (b64CharVal c0).bind fun v0 =>
    (b64CharVal c1).bind fun v1 =>
    if c2 = '=' then
      if c3 = '=' ∧ rest = [] then
        if v1 % 16 = 0 then some [v0 * 4 + v1 / 16] else none
      else none
    else
      (b64CharVal c2).bind fun v2 =>
      if c3 = '=' then
        if rest = [] then
          if v2 % 4 = 0 then some [v0 * 4 + v1 / 16, v1 % 16 * 16 + v2 / 4] else none
        else none
      else
        (b64CharVal c3).bind fun v3 =>
        (decodeChunks rest).bind fun tail =>
        some ((v0 * 4 + v1 / 16) :: (v1 % 16 * 16 + v2 / 4) :: (v2 % 4 * 64 + v3) :: tail)
  | [] => some []
  | _ => none

/-- `BASE64_STANDARD.decode`: base64-decode a string to a byte list,
`none` on invalid input. -/
def base64Decode (s : String) : Option (List Nat) := decodeChunks s.data

/-! ## SHA-256 (FIPS 180-4) and HMAC-SHA256 (RFC 2104) — `ring::hmac::HMAC_SHA256` -/

/-- 32-bit right rotation of a word `x < 2 ^ 32`. -/
def rotr (n x : Nat) : Nat := x / 2 ^ n + x % 2 ^ n * 2 ^ (32 - n)

/-- Right shift. -/
def shr (n x : Nat) : Nat := x / 2 ^ n

/-- Bitwise complement on 32-bit words. -/
def notw (x : Nat) : Nat := x ^^^ (2 ^ 32 - 1)

/-- FIPS 180-4 `Ch(x, y, z)`. -/
def chF (x y z : Nat) : Nat := (x &&& y) ^^^ (notw x &&& z)

/-- FIPS 180-4 `Maj(x, y, z)`. -/
def majF (x y z : Nat) : Nat := (x &&& y) ^^^ (x &&& z) ^^^ (y &&& z)

/-- FIPS 180-4 `Σ0`. -/
def bigSigma0 (x : Nat) : Nat := rotr 2 x ^^^ rotr 13 x ^^^ rotr 22 x

/-- FIPS 180-4 `Σ1`. -/
def bigSigma1 (x : Nat) : Nat := rotr 6 x ^^^ rotr 11 x ^^^ rotr 25 x

/-- FIPS 180-4 `σ0`. -/
def smallSigma0 (x : Nat) : Nat := rotr 7 x ^^^ rotr 18 x ^^^ shr 3 x

/-- FIPS 180-4 `σ1`. -/
def smallSigma1 (x : Nat) : Nat := rotr 17 x ^^^ rotr 19 x ^^^ shr 10 x

/-- The 64 SHA-256 round constants. -/
def sha256K : List Nat :=
  [1116352408, 1899447441, 3049323471, 3921009573, 961987163, 1508970993,
   2453635748, 2870763221, 3624381080, 310598401, 607225278, 1426881987,
   1925078388, 2162078206, 2614888103, 3248222580, 3835390401, 4022224774,
   264347078, 604807628, 770255983, 1249150122, 1555081692, 1996064986,
   2554220882, 2821834349, 2952996808, 3210313671, 3336571891, 3584528711,
   113926993, 338241895, 666307205, 773529912, 1294757372, 1396182291,
   1695183700, 1986661051, 2177026350, 2456956037, 2730485921, 2820302411,
   3259730800, 3345764771, 3516065817, 3600352804, 4094571909, 275423344,
   430227734, 506948616, 659060556, 883997877, 958139571, 1322822218,
   1537002063, 1747873779, 1955562222, 2024104815, 2227730452, 2361852424,
   2428436474, 2756734187, 3204031479, 3329325298]

/-- Working state of the compression function (eight 32-bit words). -/
structure Sha256State where
  a : Nat
  b : Nat
  c : Nat
  d : Nat
  e : Nat
  f : Nat
  g : Nat
  h : Nat

/-- The SHA-256 initial hash value `H⁽⁰⁾`. -/
def sha256H0 : Sha256State :=
  ⟨1779033703, 3144134277, 1013904242, 2773480762, 1359893119, 2600822924, 528734635, 1541459225⟩

/-- Extend a 16-word block to the 64-word message schedule:
`W t = σ1 (W (t-2)) + W (t-7) + σ0 (W (t-15)) + W (t-16) mod 2 ^ 32`,
appending `fuel` further words. -/
def extendSchedule : Nat → List Nat → List Nat
  | 0, acc => acc
  | fuel + 1, acc =>
      extendSchedule fuel (acc ++
        [(smallSigma1 (acc.getD (acc.length - 2) 0) + acc.getD (acc.length - 7) 0 +
          smallSigma0 (acc.getD (acc.length - 15) 0) + acc.getD (acc.length - 16) 0) % 2 ^ 32])

/-- One round of the SHA-256 compression function with round constant and
schedule word `kw`. -/
def compressRound (st : Sha256State) (kw : Nat × Nat) : Sha256State :=
  let t1 := (st.h + bigSigma1 st.e + chF st.e st.f st.g + kw.1 + kw.2) % 2 ^ 32
  let t2 := (bigSigma0 st.a + majF st.a st.b st.c) % 2 ^ 32
  ⟨(t1 + t2) % 2 ^ 32, st.a, st.b, st.c, (st.d + t1) % 2 ^ 32, st.e, st.f, st.g⟩

/-- Process one 512-bit (16-word) block. -/
def compressBlock (h0 : Sha256State) (block : List Nat) : Sha256State :=
  let w := extendSchedule 48 block
  let st := (sha256K.zip w).foldl compressRound h0
  ⟨(h0.a + st.a) % 2 ^ 32, (h0.b + st.b) % 2 ^ 32, (h0.c + st.c) % 2 ^ 32,
   (h0.d + st.d) % 2 ^ 32, (h0.e + st.e) % 2 ^ 32, (h0.f + st.f) % 2 ^ 32,
   (h0.g + st.g) % 2 ^ 32, (h0.h + st.h) % 2 ^ 32⟩

/-- Big-endian assembly of a byte list into 32-bit words, four bytes each. -/
def bytesToWords : List Nat → List Nat
  | a :: b :: c :: d :: rest => (a * 2 ^ 24 + b * 2 ^ 16 + c * 2 ^ 8 + d) :: bytesToWords rest
  | _ => []

/-- Split a word list into 16-word blocks. -/
def toBlocks (ws : List Nat) : List (List Nat) :=
  if h : ws = [] then []
  else (ws.take 16) :: toBlocks (ws.drop 16)
termination_by ws.length
decreasing_by
  cases ws with
  | nil => exact absurd rfl h
  | cons x xs => simp; omega

/-- Big-endian serialization of 32-bit words into bytes. -/
def wordsToBytes (ws : List Nat) : List Nat :=
  ws.flatMap fun w => [w / 2 ^ 24 % 256, w / 2 ^ 16 % 256, w / 2 ^ 8 % 256, w % 256]

/-- SHA-256 padding for a message of `len` bytes: a `0x80` byte, zero bytes
to 56 mod 64, and the bit length as an eight-byte big-endian integer. -/
def sha256Pad (len : Nat) : List Nat :=
  0x80 :: List.replicate ((120 - (len + 1) % 64) % 64) 0 ++
  [8 * len / 2 ^ 56 % 256, 8 * len / 2 ^ 48 % 256, 8 * len / 2 ^ 40 % 256, 8 * len / 2 ^ 32 % 256,
   8 * len / 2 ^ 24 % 256, 8 * len / 2 ^ 16 % 256, 8 * len / 2 ^ 8 % 256, 8 * len % 256]

/-- SHA-256 digest (32 bytes) of a byte-list message, per FIPS 180-4. -/
def sha256 (msg : List Nat) : List Nat :=
  let padded := msg ++ sha256Pad msg.length
  let final := (toBlocks (bytesToWords padded)).foldl compressBlock sha256H0
  wordsToBytes [final.a, final.b, final.c, final.d, final.e, final.f, final.g, final.h]

/-- HMAC-SHA256 per RFC 2104 (block size 64): keys longer than one block are
hashed first, shorter keys are zero-padded;
`HMAC(K, m) = H((K' ^ opad) ∥ H((K' ^ ipad) ∥ m))`. -/
def hmacSha256 (key msg : List Nat) : List Nat :=
  let k0 := if 64 < key.length then sha256 key else key
  let kb := k0 ++ List.replicate (64 - k0.length) 0
  let inner := sha256 ((kb.map fun b => b ^^^ 0x36) ++ msg)
  sha256 ((kb.map fun b => b ^^^ 0x5c) ++ inner)

/-! ## Request signing — `src/auth.rs` -/

/-- UTF-8 bytes of a string (`str::as_bytes`). -/
def strBytes (s : String) : List Nat := s.toUTF8.toList.map fun b => b.toNat

/-- HTTP method (`reqwest::Method`), standard verbs. -/
inductive Method where
  | GET
  | POST
  | PUT
  | DELETE
  | HEAD
  | OPTIONS
  | CONNECT
  | PATCH
  | TRACE
deriving DecidableEq, Fintype

/-- `Method::to_string`. -/
def Method.toStr : Method → String
  | .GET => "GET"
  | .POST => "POST"
  | .PUT => "PUT"
  | .DELETE => "DELETE"
  | .HEAD => "HEAD"
  | .OPTIONS => "OPTIONS"
  | .CONNECT => "CONNECT"
  | .PATCH => "PATCH"
  | .TRACE => "TRACE"

/-- `String::to_lowercase` (the method strings are ASCII). -/
def lowercaseStr (s : String) : String := String.mk (s.data.map Char.toLower)

/-- `BASE_URL` from `src/lib.rs`. -/
def BASE_URL : String := "https://api.remote.it"

/-- `GRAPHQL_PATH` from `src/lib.rs`. -/
def GRAPHQL_PATH : String := "/graphql/v1"

/-- `FILE_UPLOAD_PATH` from `src/lib.rs`. -/
def FILE_UPLOAD_PATH : String := "/graphql/v1/file/upload"

/-- The `signature_params` canonical signing string built inside
`build_auth_header` (`src/auth.rs` lines 59–63). -/
def signatureParams (method : Method) (path date content_type : String) : String :=
  "(request-target): " ++ lowercaseStr method.toStr ++ " " ++ path ++
  "\nhost: api.remote.it\ndate: " ++ date ++ "\ncontent-type: " ++ content_type

/-- `create_signature` (`src/auth.rs` lines 18–22): HMAC-SHA256 the UTF-8
bytes of `message` with `key`, then base64-encode the digest. -/
def createSignature (key : List Nat) (message : String) : String :=
  base64Encode (hmacSha256 key (strBytes message))

/-- `build_auth_header` (`src/auth.rs` lines 50–69). -/
def buildAuthHeader (key_id : String) (key : List Nat) (content_type : String)
    (method : Method) (path date : String) : String :=
  "Signature keyId=\"" ++ key_id ++
  "\",algorithm=\"hmac-sha256\",headers=\"(request-target) host date content-type\",signature=\"" ++
  createSignature key (signatureParams method path date content_type) ++ "\""

/-! ## Credentials — `src/credentials.rs`, `src/credentials_loader.rs` -/

/-- `base64::DecodeError` (payload details elided). -/
inductive DecodeErr where
  | invalidBase64
deriving DecidableEq

/-- The verified credentials value used by the client: access key id, the
secret as base64 text, and the decoded secret key bytes. -/
structure Credentials where
  r3_access_key_id : String
  r3_secret_access_key : String
  key : List Nat
deriving DecidableEq

/-- Modelled from the spec: the fallible `Credentials::builder().build()`
constructor is not present in the checked-out `src/credentials.rs` (the file
is a stale revision without the decoded `key` field), but every caller —
`CredentialProfiles::take_profile`, `send_remoteit_graphql_request`,
`upload_file` — uses a `Credentials` whose construction base64-decodes
`r3_secret_access_key` and fails with `base64::DecodeError` when the secret
is not valid base64 ("Credential construction fails (does not produce a
usable value) when given a secret string that is not valid base64"). -/
def Credentials.build (r3_access_key_id r3_secret_access_key : String) :
    Except DecodeErr Credentials :=
  match base64Decode r3_secret_access_key with
  | some key => .ok ⟨r3_access_key_id, r3_secret_access_key, key⟩
  | none => .error .invalidBase64

/-- `UnverifiedCredentials` (`src/credentials_loader.rs` lines 27–30). -/
structure UnverifiedCredentials where
  r3_access_key_id : String
  r3_secret_access_key : String
deriving DecidableEq

/-- `CredentialProfiles` (`src/credentials_loader.rs` lines 42–45); the inner
`HashMap<String, UnverifiedCredentials>` is modelled as a lookup function. -/
structure CredentialProfiles where
  profiles : String → Option UnverifiedCredentials

/-- `CredentialProfiles::take_profile` (`src/credentials_loader.rs`
lines 57–72): remove the named profile from the map, return `Ok(None)` when
absent, otherwise validate the secret through `Credentials::build`. The
`&mut self` receiver is modelled by also returning the updated profile map. -/
def takeProfile (s : CredentialProfiles) (profile_name : String) :
    Except DecodeErr (Option Credentials) × CredentialProfiles :=
  let removed : CredentialProfiles :=
    ⟨fun n => if n = profile_name then none else s.profiles n⟩
  match s.profiles profile_name with
  | none => (.ok none, removed)
  | some uc =>
      ((Credentials.build uc.r3_access_key_id uc.r3_secret_access_key).map some, removed)

/-! ## File upload response handling — `src/api_file_upload.rs` -/

/-- `UploadFileResponse` (`src/api_file_upload.rs` lines 18–26);
`file_arguments` values are opaque JSON, modelled as strings. -/
structure UploadFileResponse where
  file_id : String
  file_version_id : String
  version : Nat
  name : String
  executable : Bool
  owner_id : String
  file_arguments : List String
deriving DecidableEq

/-- `ErrorResponse` (`src/api_file_upload.rs` lines 29–31). -/
structure ErrorResponse where
  message : String
deriving DecidableEq

/-- `reqwest::Error` (opaque payload). -/
structure ReqwestErr where
  msg : String
deriving DecidableEq

/-- `UploadFileError` (`src/api_file_upload.rs` lines 35–44). -/
inductive UploadFileError where
  | ioErr (e : String)
  | reqwest (e : ReqwestErr)
  | parseJson (e : ReqwestErr)
  | apiError (e : ErrorResponse)
deriving DecidableEq

/-- The part of an HTTP response that `upload_file` inspects after `send()`:
the success bit of the status, and the outcomes of deserializing the body as
`UploadFileResponse` or as `ErrorResponse` (`reqwest::Response::json`). -/
structure UploadHttpResponse where
  isSuccess : Bool
  parseUpload : Except ReqwestErr UploadFileResponse
  parseError : Except ReqwestErr ErrorResponse

/-- The response handling of `upload_file` (`src/api_file_upload.rs` lines
96–112): a transport failure from `send()` maps through `#[from]` to
`UploadFileError::Reqwest`; on a success status the body is parsed as
`UploadFileResponse` (failure → `ParseJson`); on a non-success status the
body is parsed as `ErrorResponse` (success → `ApiError`, failure →
`ParseJson`). -/
def uploadFile (send : Except ReqwestErr UploadHttpResponse) :
    Except UploadFileError UploadFileResponse :=
  match send with
  | .error e => .error (.reqwest e)
  | .ok response =>
    if response.isSuccess then
      match response.parseUpload with
      | .ok file_upload_response => .ok file_upload_response
      | .error e => .error (.parseJson e)
    else
      match response.parseError with
      | .ok er => .error (.apiError er)
      | .error e => .error (.parseJson e)

/-! ## Date header and GraphQL request assembly — `src/auth.rs`, `src/api_blocking.rs` -/

/-- The instant `Utc::now()` returns, already broken into calendar fields
(the clock itself is outside the embedding and is passed in explicitly). -/
structure UtcDateTime where
  weekday : Nat
  day : Nat
  month : Nat
  year : Nat
  hour : Nat
  minute : Nat
  second : Nat

/-- chrono `%a`: abbreviated weekday name (0 = Sunday). -/
def weekdayAbbrev : Nat → String
  | 0 => "Sun"
  | 1 => "Mon"
  | 2 => "Tue"
  | 3 => "Wed"
  | 4 => "Thu"
  | 5 => "Fri"
  | _ => "Sat"

/-- chrono `%b`: abbreviated month name (1 = January). -/
def monthAbbrev : Nat → String
  | 1 => "Jan"
  | 2 => "Feb"
  | 3 => "Mar"
  | 4 => "Apr"
  | 5 => "May"
  | 6 => "Jun"
  | 7 => "Jul"
  | 8 => "Aug"
  | 9 => "Sep"
  | 10 => "Oct"
  | 11 => "Nov"
  | _ => "Dec"

/-- Zero-padded two-digit decimal (chrono `%d`, `%H`, `%M`, `%S`). -/
def pad2 (n : Nat) : String := if n < 10 then "0" ++ toString n else toString n

/-- Zero-padded four-digit decimal (chrono `%Y`). -/
def pad4 (n : Nat) : String :=
  if n < 10 then "000" ++ toString n
  else if n < 100 then "00" ++ toString n
  else if n < 1000 then "0" ++ toString n
  else toString n

/-- `get_date` (`src/auth.rs` lines 79–81): format the current UTC time with
the chrono format string `"%a, %d %b %Y %H:%M:%S GMT"`. -/
def getDate (now : UtcDateTime) : String :=
  weekdayAbbrev now.weekday ++ ", " ++ pad2 now.day ++ " " ++ monthAbbrev now.month ++ " " ++
  pad4 now.year ++ " " ++ pad2 now.hour ++ ":" ++ pad2 now.minute ++ ":" ++
  pad2 now.second ++ " GMT"

/-- The outbound HTTP request assembled by `send_remoteit_graphql_request`. -/
structure GraphqlRequest where
  url : String
  dateHeader : String
  contentTypeHeader : String
  authorizationHeader : String
  bodyJson : String

/-- `send_remoteit_graphql_request` (`src/api_blocking.rs` lines 27–50) up to
the `send()` call: one `get_date()` result is bound to `date` and used both
for the `Date` header and inside `build_auth_header`; the serialized query
body is treated as opaque. -/
def sendRemoteitGraphqlRequest (credentials : Credentials) (queryBody : String)
    (now : UtcDateTime) : GraphqlRequest :=
  let date := getDate now
  { url := BASE_URL ++ GRAPHQL_PATH
    dateHeader := date
    contentTypeHeader := "application/json"
    authorizationHeader :=
      buildAuthHeader credentials.r3_access_key_id credentials.key "application/json"
        Method.POST GRAPHQL_PATH date
    bodyJson := queryBody }

/-! ## Helper machinery: positional value of a byte list, cancellation lemmas -/

/-- Big-endian positional value of a byte list (base 256). -/
def encodeBytes (bs : List Nat) : Nat := bs.foldl (fun a b => a * 256 + b) 0

/-! ## Theorems -/

theorem b64CharVal_b64Char : ∀ n, n < 64 → b64CharVal (b64Char n) = some n := by decide

theorem splitDiv (x y k : Nat) (hy : y < k) (hk : 0 < k) : (x * k + y) / k = x := by
  rw [Nat.add_comm, Nat.add_mul_div_right _ _ hk, Nat.div_eq_of_lt hy]
  omega

theorem splitMod (x y k : Nat) (hy : y < k) : (x * k + y) % k = y := by
  rw [Nat.add_comm, Nat.add_mul_mod_self_right, Nat.mod_eq_of_lt hy]

theorem b64Char_ne_pad : ∀ n, n < 64 → b64Char n ≠ '=' := by decide

/-- Decoding inverts encoding on byte lists. -/
theorem decodeChunks_encodeChunks :
    ∀ bs : List Nat, (∀ b ∈ bs, b < 256) → decodeChunks (encodeChunks bs) = some bs := by
  intro bs
  induction bs using encodeChunks.induct with
  | case1 =>
      intro _
      simp [encodeChunks, decodeChunks]
  | case2 b0 =>
      intro h
      have hb0 : b0 < 256 := h b0 (by simp)
      have h0 := b64CharVal_b64Char (b0 / 4) (by omega)
      have h1 := b64CharVal_b64Char (b0 % 4 * 16) (by omega)
      have hg : (b0 % 4 * 16) % 16 = 0 := by omega
      have e0 : b0 % 4 * 16 / 16 = b0 % 4 := by simp
      simp only [encodeChunks, decodeChunks, h0, h1, Option.some_bind, if_true, and_self, hg,
        reduceIte, e0]
      simp only [Option.some.injEq, List.cons.injEq, and_true]
      omega
  | case3 b0 b1 =>
      intro h
      have hb0 : b0 < 256 := h b0 (by simp)
      have hb1 : b1 < 256 := h b1 (by simp)
      have h0 := b64CharVal_b64Char (b0 / 4) (by omega)
      have h1 := b64CharVal_b64Char (b0 % 4 * 16 + b1 / 16) (by omega)
      have h2 := b64CharVal_b64Char (b1 % 16 * 4) (by omega)
      have hp2 := b64Char_ne_pad (b1 % 16 * 4) (by omega)
      have hg : (b1 % 16 * 4) % 4 = 0 := by omega
      have eA : (b0 % 4 * 16 + b1 / 16) / 16 = b0 % 4 := splitDiv _ _ 16 (by omega) (by omega)
      have eA' : (b0 % 4 * 16 + b1 / 16) % 16 = b1 / 16 := splitMod _ _ 16 (by omega)
      have eB : b1 % 16 * 4 / 4 = b1 % 16 := by simp
      simp only [encodeChunks, decodeChunks, h0, h1, h2, Option.some_bind, if_neg hp2,
        if_true, hg, reduceIte, eA, eA', eB]
      simp only [Option.some.injEq, List.cons.injEq, and_true]
      omega
  | case4 b0 b1 b2 rest ih =>
      intro h
      have hb0 : b0 < 256 := h b0 (by simp)
      have hb1 : b1 < 256 := h b1 (by simp)
      have hb2 : b2 < 256 := h b2 (by simp)
      have hrest : ∀ b ∈ rest, b < 256 := fun b hb => h b (by simp [hb])
      have h0 := b64CharVal_b64Char (b0 / 4) (by omega)
      have h1 := b64CharVal_b64Char (b0 % 4 * 16 + b1 / 16) (by omega)
      have h2 := b64CharVal_b64Char (b1 % 16 * 4 + b2 / 64) (by omega)
      have h3 := b64CharVal_b64Char (b2 % 64) (by omega)
      have hp2 := b64Char_ne_pad (b1 % 16 * 4 + b2 / 64) (by omega)
      have hp3 := b64Char_ne_pad (b2 % 64) (by omega)
      have eA : (b0 % 4 * 16 + b1 / 16) / 16 = b0 % 4 := splitDiv _ _ 16 (by omega) (by omega)
      have eA' : (b0 % 4 * 16 + b1 / 16) % 16 = b1 / 16 := splitMod _ _ 16 (by omega)
      have eB : (b1 % 16 * 4 + b2 / 64) / 4 = b1 % 16 := splitDiv _ _ 4 (by omega) (by omega)
      have eB' : (b1 % 16 * 4 + b2 / 64) % 4 = b2 / 64 := splitMod _ _ 4 (by omega)
      simp only [encodeChunks, decodeChunks, h0, h1, h2, h3, Option.some_bind,
        if_neg hp2, if_neg hp3, ih hrest, eA, eA', eB, eB']
      simp only [Option.some.injEq, List.cons.injEq]
      refine ⟨by omega, by omega, by omega, trivial⟩

/-- Round-trip at the level of strings. -/
theorem base64Decode_base64Encode (bs : List Nat) (h : ∀ b ∈ bs, b < 256) :
    base64Decode (base64Encode bs) = some bs := by
  unfold base64Decode base64Encode
  rw [show (String.mk (encodeChunks bs)).data = encodeChunks bs from rfl]
  exact decodeChunks_encodeChunks bs h

/-- A SHA-256 digest is exactly 32 bytes. -/
theorem sha256_length (msg : List Nat) : (sha256 msg).length = 32 := rfl

/-- Every byte of a SHA-256 digest is below 256. -/
theorem sha256_lt (msg : List Nat) : ∀ b ∈ sha256 msg, b < 256 := by
  intro b hb
  simp only [sha256, wordsToBytes, List.flatMap_cons, List.flatMap_nil, List.append_nil,
    List.mem_append, List.mem_cons, List.not_mem_nil, or_false] at hb
  rcases hb with h | h | h | h | h | h | h | h <;>
    rcases h with h | h | h | h <;> subst h <;> exact Nat.mod_lt _ (by omega)

/-- An HMAC-SHA256 digest is exactly 32 bytes. -/
theorem hmacSha256_length (key msg : List Nat) : (hmacSha256 key msg).length = 32 :=
  sha256_length _

/-- Every byte of an HMAC-SHA256 digest is below 256. -/
theorem hmacSha256_lt (key msg : List Nat) : ∀ b ∈ hmacSha256 key msg, b < 256 :=
  sha256_lt _

theorem encodeBytes_foldl :
    ∀ (l : List Nat) (acc : Nat),
      l.foldl (fun a b => a * 256 + b) acc = acc * 256 ^ l.length + encodeBytes l := by
  intro l
  induction l with
  | nil => intro acc; simp [encodeBytes]
  | cons x t ih =>
      intro acc
      simp only [List.foldl_cons, List.length_cons, encodeBytes]
      rw [ih (acc * 256 + x), ih (0 * 256 + x)]
      ring

theorem encodeBytes_cons (x : Nat) (t : List Nat) :
    encodeBytes (x :: t) = x * 256 ^ t.length + encodeBytes t := by
  calc encodeBytes (x :: t) = t.foldl (fun a b => a * 256 + b) (0 * 256 + x) := rfl
    _ = x * 256 ^ t.length + encodeBytes t := by
        rw [encodeBytes_foldl t (0 * 256 + x)]; ring

theorem encodeBytes_lt :
    ∀ l : List Nat, (∀ b ∈ l, b < 256) → encodeBytes l < 256 ^ l.length := by
  intro l
  induction l with
  | nil => intro _; simp [encodeBytes]
  | cons x t ih =>
      intro h
      have hx : x < 256 := h x (by simp)
      have ht := ih fun b hb => h b (by simp [hb])
      have hQ : encodeBytes (x :: t) < (x + 1) * 256 ^ t.length := by
        rw [encodeBytes_cons, Nat.succ_mul]
        exact Nat.add_lt_add_left ht _
      have h2 : (x + 1) * 256 ^ t.length ≤ 256 * 256 ^ t.length :=
        Nat.mul_le_mul_right _ (by omega)
      have h3 : 256 * 256 ^ t.length = 256 ^ (x :: t).length := by
        rw [List.length_cons, pow_succ]; ring
      omega

theorem encodeBytes_inj :
    ∀ l1 l2 : List Nat, l1.length = l2.length → (∀ b ∈ l1, b < 256) → (∀ b ∈ l2, b < 256) →
      encodeBytes l1 = encodeBytes l2 → l1 = l2 := by
  intro l1
  induction l1 with
  | nil =>
      intro l2 hlen _ _ _
      cases l2 with
      | nil => rfl
      | cons y s => simp at hlen
  | cons x t ih =>
      intro l2 hlen h1 h2 he
      cases l2 with
      | nil => simp at hlen
      | cons y s =>
        have hts : t.length = s.length := by simpa using hlen
        have ht : ∀ b ∈ t, b < 256 := fun b hb => h1 b (by simp [hb])
        have hs : ∀ b ∈ s, b < 256 := fun b hb => h2 b (by simp [hb])
        rw [encodeBytes_cons, encodeBytes_cons, hts] at he
        have het := encodeBytes_lt t ht
        have hes := encodeBytes_lt s hs
        rw [hts] at het
        have hQ : 0 < 256 ^ s.length := pow_pos (by norm_num) _
        have d1 : (x * 256 ^ s.length + encodeBytes t) / 256 ^ s.length = x :=
          splitDiv _ _ _ het hQ
        have d2 : (y * 256 ^ s.length + encodeBytes s) / 256 ^ s.length = y :=
          splitDiv _ _ _ hes hQ
        have hxy : x = y := by rw [← d1, ← d2, he]
        have m1 := splitMod x (encodeBytes t) (256 ^ s.length) het
        have m2 := splitMod y (encodeBytes s) (256 ^ s.length) hes
        have hte : encodeBytes t = encodeBytes s := by rw [← m1, ← m2, he]
        rw [hxy, ih s hts ht hs hte]

theorem string_data_inj : ∀ {s t : String}, s.data = t.data → s = t := by
  intro s t h
  cases s; cases t; simp_all

theorem lowercase_toStr_inj :
    ∀ m₁ m₂ : Method, lowercaseStr m₁.toStr = lowercaseStr m₂.toStr → m₁ = m₂ := by decide

theorem signatureParams_method_inj (m₁ m₂ : Method) (p d ct : String)
    (h : signatureParams m₁ p d ct = signatureParams m₂ p d ct) : m₁ = m₂ := by
  have hd := congrArg String.data h
  simp only [signatureParams, String.data_append, List.append_assoc] at hd
  have h1 := List.append_cancel_left hd
  have h2 := List.append_cancel_right h1
  exact lowercase_toStr_inj m₁ m₂ (string_data_inj h2)

theorem signatureParams_path_inj (m : Method) (p₁ p₂ d ct : String)
    (h : signatureParams m p₁ d ct = signatureParams m p₂ d ct) : p₁ = p₂ := by
  have hd := congrArg String.data h
  simp only [signatureParams, String.data_append, List.append_assoc] at hd
  have h1 := List.append_cancel_left (List.append_cancel_left (List.append_cancel_left hd))
  exact string_data_inj (List.append_cancel_right h1)

theorem signatureParams_date_inj (m : Method) (p d₁ d₂ ct : String)
    (h : signatureParams m p d₁ ct = signatureParams m p d₂ ct) : d₁ = d₂ := by
  have hd := congrArg String.data h
  simp only [signatureParams, String.data_append, List.append_assoc] at hd
  have h1 := List.append_cancel_left (List.append_cancel_left (List.append_cancel_left
    (List.append_cancel_left (List.append_cancel_left hd))))
  exact string_data_inj (List.append_cancel_right h1)

theorem signatureParams_ct_inj (m : Method) (p d ct₁ ct₂ : String)
    (h : signatureParams m p d ct₁ = signatureParams m p d ct₂) : ct₁ = ct₂ := by
  have hd := congrArg String.data h
  simp only [signatureParams, String.data_append, List.append_assoc] at hd
  have h1 := List.append_cancel_left (List.append_cancel_left (List.append_cancel_left
    (List.append_cancel_left (List.append_cancel_left (List.append_cancel_left
      (List.append_cancel_left hd))))))
  exact string_data_inj h1

theorem encode_hmac_lt (key msg : List Nat) : encodeBytes (hmacSha256 key msg) < 256 ^ 32 := by
  have h := encodeBytes_lt (hmacSha256 key msg) (hmacSha256_lt key msg)
  rwa [hmacSha256_length key msg] at h

/-! ## Claim theorems -/

/-- C1: for every key_id, key bytes, content_type, method, path and date,
`build_auth_header` returns
`Signature keyId="<key_id>",algorithm="hmac-sha256",headers="(request-target) host date content-type",signature="<sig>"`
where `<sig>` is the standard-alphabet padded base64 encoding of the
HMAC-SHA256 digest, keyed by `key`, of the UTF-8 bytes of the canonical
string `(request-target): <lowercased-method> <path>\nhost: api.remote.it\ndate: <date>\ncontent-type: <content_type>`
(newline-joined, no trailing newline, host the constant literal
`api.remote.it` regardless of any input). -/
theorem C1_buildAuthHeader_formula :
    ∀ (key_id : String) (key : List Nat) (content_type : String) (method : Method)
      (path date : String),
      buildAuthHeader key_id key content_type method path date =
        "Signature keyId=\"" ++ key_id ++
        "\",algorithm=\"hmac-sha256\",headers=\"(request-target) host date content-type\",signature=\"" ++
        base64Encode (hmacSha256 key (strBytes
          ("(request-target): " ++ lowercaseStr method.toStr ++ " " ++ path ++
           "\nhost: api.remote.it\ndate: " ++ date ++ "\ncontent-type: " ++ content_type))) ++
        "\"" := by
  intros
  rfl

/-- C2: `build_auth_header` is deterministic and side-effect-free — two calls
on identical inputs yield an identical header value; the signer is a pure
function of its six arguments (no randomness, no clock: the date is an
argument supplied by the caller). -/
theorem C2_buildAuthHeader_deterministic :
    ∀ (key_id₁ key_id₂ : String) (key₁ key₂ : List Nat) (ct₁ ct₂ : String)
      (m₁ m₂ : Method) (p₁ p₂ d₁ d₂ : String),
      key_id₁ = key_id₂ → key₁ = key₂ → ct₁ = ct₂ → m₁ = m₂ → p₁ = p₂ → d₁ = d₂ →
      buildAuthHeader key_id₁ key₁ ct₁ m₁ p₁ d₁ = buildAuthHeader key_id₂ key₂ ct₂ m₂ p₂ d₂ := by
  intros
  subst_vars
  rfl

/-- Witness for C2 at concrete inputs. -/
theorem C2_witness :
    buildAuthHeader "foo" [98, 97, 114] "application/json" Method.POST "/graphql/v1"
        "Tue, 01 Jan 2025 00:00:00 GMT" =
      buildAuthHeader "foo" [98, 97, 114] "application/json" Method.POST "/graphql/v1"
        "Tue, 01 Jan 2025 00:00:00 GMT" :=
  C2_buildAuthHeader_deterministic "foo" "foo" [98, 97, 114] [98, 97, 114]
    "application/json" "application/json" Method.POST Method.POST "/graphql/v1" "/graphql/v1"
    "Tue, 01 Jan 2025 00:00:00 GMT" "Tue, 01 Jan 2025 00:00:00 GMT"
    rfl rfl rfl rfl rfl rfl

/-- C4: every produced header value matches the fixed template
`Signature keyId="<id>",algorithm="hmac-sha256",headers="(request-target) host date content-type",signature="<base64>"`,
and the signature field base64-decodes to exactly 32 bytes (the HMAC-SHA256
digest length). -/
theorem C4_template_and_digest_length :
    ∀ (key_id : String) (key : List Nat) (content_type : String) (method : Method)
      (path date : String),
      ∃ (sig : String) (bytes : List Nat),
        buildAuthHeader key_id key content_type method path date =
          "Signature keyId=\"" ++ key_id ++
          "\",algorithm=\"hmac-sha256\",headers=\"(request-target) host date content-type\",signature=\"" ++
          sig ++ "\"" ∧
        base64Decode sig = some bytes ∧ bytes.length = 32 := by
  intro key_id key content_type method path date
  refine ⟨createSignature key (signatureParams method path date content_type),
    hmacSha256 key (strBytes (signatureParams method path date content_type)), rfl, ?_, ?_⟩
  · exact base64Decode_base64Encode _ (hmacSha256_lt _ _)
  · exact hmacSha256_length _ _

/-- C9: base64-encoding any byte sequence (standard alphabet, padded) and
then base64-decoding the result yields exactly the original bytes. -/
theorem C9_base64_roundtrip :
    ∀ key : List Nat, (∀ b ∈ key, b < 256) → base64Decode (base64Encode key) = some key :=
  fun key h => base64Decode_base64Encode key h

/-- Witness for C9 at the concrete key bytes of `"bar"`. -/
theorem C9_witness :
    (∀ b ∈ [98, 97, 114], b < 256) ∧
      base64Decode (base64Encode [98, 97, 114]) = some [98, 97, 114] :=
  ⟨by decide, C9_base64_roundtrip [98, 97, 114] (by decide)⟩

/-- C3: a secret access key that is not valid base64 is detected at
credential construction (`Credentials::build` fails, e.g. on
`"not-base64!"`) or when the profile is retrieved from a loaded file
(`take_profile` returns the base64 decode error); the failure is a returned
error value, surfaced before any network call, never silently ignored. -/
theorem C3_invalid_base64_secret_rejected :
    (∀ id : String, Credentials.build id "not-base64!" = .error .invalidBase64) ∧
    (∀ (s : CredentialProfiles) (name : String) (uc : UnverifiedCredentials),
      s.profiles name = some uc → base64Decode uc.r3_secret_access_key = none →
      (takeProfile s name).1 = .error .invalidBase64) := by
  constructor
  · intro id
    simp [Credentials.build, show base64Decode "not-base64!" = none from by decide]
  · intro s name uc hlook hdec
    simp [takeProfile, hlook, Credentials.build, hdec, Except.map]

/-- Witness for C3 at a concrete profile file containing the secret
`"not-base64!"`. -/
theorem C3_witness :
    Credentials.build "foo" "not-base64!" = .error .invalidBase64 ∧
      (takeProfile ⟨fun n => if n = "default" then some ⟨"foo", "not-base64!"⟩ else none⟩
          "default").1 = .error .invalidBase64 :=
  ⟨C3_invalid_base64_secret_rejected.1 "foo",
   C3_invalid_base64_secret_rejected.2
     ⟨fun n => if n = "default" then some ⟨"foo", "not-base64!"⟩ else none⟩
     "default" ⟨"foo", "not-base64!"⟩ (by decide) (by decide)⟩

/-- C6: retrieving a profile by a name that is not present in the loaded
credentials file yields the explicit not-found outcome `Ok(None)`, never a
default or empty credential value. -/
theorem C6_missing_profile_ok_none :
    ∀ (s : CredentialProfiles) (name : String),
      s.profiles name = none → (takeProfile s name).1 = .ok none := by
  intro s name h
  simp [takeProfile, h]

/-- Witness for C6 on an empty profile map. -/
theorem C6_witness : (takeProfile ⟨fun _ => none⟩ "default").1 = .ok none :=
  C6_missing_profile_ok_none ⟨fun _ => none⟩ "default" rfl

/-- C10: `take_profile(name)` always removes the entry for `name` and leaves
every other profile unchanged; after any call — credential returned,
not-found, or base64 decode error — a second `take_profile` with the same
name returns `Ok(None)`. -/
theorem C10_takeProfile_removes :
    ∀ (s : CredentialProfiles) (name : String),
      (takeProfile s name).2.profiles name = none ∧
      (∀ other, other ≠ name → (takeProfile s name).2.profiles other = s.profiles other) ∧
      (takeProfile (takeProfile s name).2 name).1 = .ok none := by
  intro s name
  have hsnd : (takeProfile s name).2 = ⟨fun n => if n = name then none else s.profiles n⟩ := by
    unfold takeProfile
    cases s.profiles name <;> rfl
  refine ⟨?_, ?_, ?_⟩
  · rw [hsnd]; simp
  · intro other hne
    rw [hsnd]
    simp [hne]
  · rw [hsnd]
    simp [takeProfile]

/-- Witness for C10 on a concrete two-profile map, frame checked at the
other profile name. -/
theorem C10_witness :
    ((takeProfile ⟨fun n => if n = "default" then some ⟨"foo", "YmFy"⟩ else none⟩
        "default").2.profiles "default" = none) ∧
    ((takeProfile ⟨fun n => if n = "default" then some ⟨"foo", "YmFy"⟩ else none⟩
        "default").2.profiles "other" =
      (⟨fun n => if n = "default" then some ⟨"foo", "YmFy"⟩ else none⟩ :
        CredentialProfiles).profiles "other") ∧
    ((takeProfile (takeProfile ⟨fun n => if n = "default" then some ⟨"foo", "YmFy"⟩ else none⟩
        "default").2 "default").1 = .ok none) :=
  ⟨(C10_takeProfile_removes ⟨fun n => if n = "default" then some ⟨"foo", "YmFy"⟩ else none⟩
      "default").1,
   (C10_takeProfile_removes ⟨fun n => if n = "default" then some ⟨"foo", "YmFy"⟩ else none⟩
      "default").2.1 "other" (by decide),
   (C10_takeProfile_removes ⟨fun n => if n = "default" then some ⟨"foo", "YmFy"⟩ else none⟩
      "default").2.2⟩

/-- C7: in `upload_file`, a non-success status whose body parses as the
structured error payload is returned as `ApiError` carrying the parsed
message; a body that does not match the expected schema is returned as
`ParseJson`; a transport failure is `Reqwest`; and the three kinds are
pairwise distinct (never conflated). -/
theorem C7_upload_error_taxonomy :
    (∀ (r : UploadHttpResponse) (er : ErrorResponse), r.isSuccess = false →
        r.parseError = .ok er → uploadFile (.ok r) = .error (.apiError er)) ∧
    (∀ (r : UploadHttpResponse) (e : ReqwestErr), r.isSuccess = false →
        r.parseError = .error e → uploadFile (.ok r) = .error (.parseJson e)) ∧
    (∀ (r : UploadHttpResponse) (e : ReqwestErr), r.isSuccess = true →
        r.parseUpload = .error e → uploadFile (.ok r) = .error (.parseJson e)) ∧
    (∀ e : ReqwestErr, uploadFile (.error e) = .error (.reqwest e)) ∧
    (∀ (er : ErrorResponse) (e : ReqwestErr),
        UploadFileError.apiError er ≠ UploadFileError.parseJson e) ∧
    (∀ (er : ErrorResponse) (e : ReqwestErr),
        UploadFileError.apiError er ≠ UploadFileError.reqwest e) ∧
    (∀ e e' : ReqwestErr, UploadFileError.parseJson e ≠ UploadFileError.reqwest e') := by
  refine ⟨?_, ?_, ?_, ?_, ?_, ?_, ?_⟩
  · intro r er hs hp
    simp [uploadFile, hs, hp]
  · intro r e hs hp
    simp [uploadFile, hs, hp]
  · intro r e hs hp
    simp [uploadFile, hs, hp]
  · intro e
    rfl
  · exact fun er e h => UploadFileError.noConfusion h
  · exact fun er e h => UploadFileError.noConfusion h
  · exact fun e e' h => UploadFileError.noConfusion h

/-- Witness for C7 at a concrete non-success response with a parsable error
body and a concrete transport failure. -/
theorem C7_witness :
    uploadFile (.ok ⟨false, .error ⟨"no body"⟩, .ok ⟨"denied"⟩⟩) =
        .error (.apiError ⟨"denied"⟩) ∧
      uploadFile (.error ⟨"timeout"⟩) = .error (.reqwest ⟨"timeout"⟩) :=
  ⟨C7_upload_error_taxonomy.1 ⟨false, .error ⟨"no body"⟩, .ok ⟨"denied"⟩⟩ ⟨"denied"⟩ rfl rfl,
   C7_upload_error_taxonomy.2.2.2.1 ⟨"timeout"⟩⟩

/-- C8: for every GraphQL request sent by `send_remoteit_graphql_request`, a
single date string — the chrono `"%a, %d %b %Y %H:%M:%S GMT"` UTC formatting
of the current time — is generated once per request and used both as the
literal `Date` header and as the date inside the canonical signing string. -/
theorem C8_one_date_per_request :
    ∀ (credentials : Credentials) (queryBody : String) (now : UtcDateTime),
      (sendRemoteitGraphqlRequest credentials queryBody now).dateHeader = getDate now ∧
      (sendRemoteitGraphqlRequest credentials queryBody now).authorizationHeader =
        buildAuthHeader credentials.r3_access_key_id credentials.key "application/json"
          Method.POST GRAPHQL_PATH (getDate now) ∧
      getDate now =
        weekdayAbbrev now.weekday ++ ", " ++ pad2 now.day ++ " " ++ monthAbbrev now.month ++
        " " ++ pad4 now.year ++ " " ++ pad2 now.hour ++ ":" ++ pad2 now.minute ++ ":" ++
        pad2 now.second ++ " GMT" := by
  intro credentials queryBody now
  exact ⟨rfl, rfl, rfl⟩

/-- C5 counterexample: the claim "every pair of signer input tuples that
differ in exactly one of method, path, date, content-type, or key yields
differing signature values" is false as a universal statement: the signature
is a function into the finite set of 32-byte digests while paths range over
an infinite set, so by pigeonhole two distinct paths (all other inputs held
fixed) produce the same signature — indeed the same full header. -/
theorem C5_counterexample :
    ∃ p q : String, p ≠ q ∧
      buildAuthHeader "foo" [98, 97, 114] "application/json" Method.POST p
          "Tue, 01 Jan 2025 00:00:00 GMT" =
        buildAuthHeader "foo" [98, 97, 114] "application/json" Method.POST q
          "Tue, 01 Jan 2025 00:00:00 GMT" := by
  obtain ⟨n, m, hnm, heq⟩ := Finite.exists_ne_map_eq_of_infinite
    (fun n : Nat =>
      (⟨encodeBytes (hmacSha256 [98, 97, 114] (strBytes (signatureParams Method.POST
          (String.mk (List.replicate n 'a')) "Tue, 01 Jan 2025 00:00:00 GMT"
          "application/json"))), encode_hmac_lt _ _⟩ : Fin (256 ^ 32)))
  simp only [Fin.mk.injEq] at heq
  have hlist :
      hmacSha256 [98, 97, 114] (strBytes (signatureParams Method.POST
        (String.mk (List.replicate n 'a')) "Tue, 01 Jan 2025 00:00:00 GMT"
        "application/json")) =
      hmacSha256 [98, 97, 114] (strBytes (signatureParams Method.POST
        (String.mk (List.replicate m 'a')) "Tue, 01 Jan 2025 00:00:00 GMT"
        "application/json")) :=
    encodeBytes_inj _ _ (by rw [hmacSha256_length, hmacSha256_length])
      (hmacSha256_lt _ _) (hmacSha256_lt _ _) heq
  refine ⟨String.mk (List.replicate n 'a'), String.mk (List.replicate m 'a'), ?_, ?_⟩
  · intro hc
    apply hnm
    have hlen := congrArg (fun s => s.data.length) hc
    simpa using hlen
  · simp only [buildAuthHeader, createSignature, hlist]

/-- C5 (amended): changing exactly one of method, path, date, content-type,
or key — all other inputs held fixed — changes the (key, canonical signing
string) pair fed to HMAC-SHA256 (equal signature values can then arise only
as HMAC collisions); changing only key_id changes only the `keyId=` field of
the header and leaves the signature value unchanged. -/
theorem C5_single_input_changes_hmac_input :
    (∀ (m₁ m₂ : Method) (p d ct : String) (key : List Nat), m₁ ≠ m₂ →
        (key, signatureParams m₁ p d ct) ≠ (key, signatureParams m₂ p d ct)) ∧
    (∀ (m : Method) (p₁ p₂ d ct : String) (key : List Nat), p₁ ≠ p₂ →
        (key, signatureParams m p₁ d ct) ≠ (key, signatureParams m p₂ d ct)) ∧
    (∀ (m : Method) (p d₁ d₂ ct : String) (key : List Nat), d₁ ≠ d₂ →
        (key, signatureParams m p d₁ ct) ≠ (key, signatureParams m p d₂ ct)) ∧
    (∀ (m : Method) (p d ct₁ ct₂ : String) (key : List Nat), ct₁ ≠ ct₂ →
        (key, signatureParams m p d ct₁) ≠ (key, signatureParams m p d ct₂)) ∧
    (∀ (m : Method) (p d ct : String) (key₁ key₂ : List Nat), key₁ ≠ key₂ →
        (key₁, signatureParams m p d ct) ≠ (key₂, signatureParams m p d ct)) ∧
    (∀ (id₁ id₂ : String) (key : List Nat) (ct : String) (m : Method) (p d : String),
        ∃ sig : String,
          buildAuthHeader id₁ key ct m p d =
            "Signature keyId=\"" ++ id₁ ++
            "\",algorithm=\"hmac-sha256\",headers=\"(request-target) host date content-type\",signature=\"" ++
            sig ++ "\"" ∧
          buildAuthHeader id₂ key ct m p d =
            "Signature keyId=\"" ++ id₂ ++
            "\",algorithm=\"hmac-sha256\",headers=\"(request-target) host date content-type\",signature=\"" ++
            sig ++ "\"") := by
  refine ⟨?_, ?_, ?_, ?_, ?_, ?_⟩
  · intro m₁ m₂ p d ct key hne hpair
    exact hne (signatureParams_method_inj m₁ m₂ p d ct (congrArg Prod.snd hpair))
  · intro m p₁ p₂ d ct key hne hpair
    exact hne (signatureParams_path_inj m p₁ p₂ d ct (congrArg Prod.snd hpair))
  · intro m p d₁ d₂ ct key hne hpair
    exact hne (signatureParams_date_inj m p d₁ d₂ ct (congrArg Prod.snd hpair))
  · intro m p d ct₁ ct₂ key hne hpair
    exact hne (signatureParams_ct_inj m p d ct₁ ct₂ (congrArg Prod.snd hpair))
  · intro m p d ct key₁ key₂ hne hpair
    exact hne (congrArg Prod.fst hpair)
  · intro id₁ id₂ key ct m p d
    exact ⟨createSignature key (signatureParams m p d ct), rfl, rfl⟩

/-- Witness for the amended C5 at concrete inputs differing only in path. -/
theorem C5_witness :
    (([98, 97, 114] : List Nat),
        signatureParams Method.POST "/a" "Tue, 01 Jan 2025 00:00:00 GMT" "application/json") ≠
      ([98, 97, 114],
        signatureParams Method.POST "/b" "Tue, 01 Jan 2025 00:00:00 GMT" "application/json") :=
  C5_single_input_changes_hmac_input.2.1 Method.POST "/a" "/b"
    "Tue, 01 Jan 2025 00:00:00 GMT" "application/json" [98, 97, 114] (by decide)
